import Mathlib

/-!
# sumdbaudit/cli/clone: the orchestration in `main`

A shallow embedding of `src/sumdbaudit/cli/clone/clone.go`.  The program is a
single function, `main`, which drives the collaborators of the `audit` package
in a fixed order and stops at the first error.  The collaborators are not part
of this file: they are taken as a record of state transformers over an
arbitrary world type `W`, so every statement below holds for any behaviour of
the database, the network and the hashing code.

A run of `main` is observed through its trace: the calls made on the `audit`
package (with their arguments and what they returned), the lines handed to
`log.Printf`, the final `log.Fatalf` if there is one, and the exit status.
What the collaborators really received is read from a record they keep
themselves (`recording`, `recorded`); `recorded_eq` shows that the calls of the
trace are exactly that record.
-/

namespace SumDBAudit

/-! ## Data model -/

/-- A Go `error` value, represented by its message. -/
abbrev Err := String

/-- The handle returned by `audit.NewDatabase`. -/
structure Database where
  handle : Nat
  deriving DecidableEq, Repr

/-- The handle returned by `audit.NewSumDB`. -/
structure SumDB where
  handle : Nat
  deriving DecidableEq, Repr

/-- The handle returned by `audit.NewService`. -/
structure Service where
  handle : Nat
  deriving DecidableEq, Repr

/-- The value of `context.Background()`. -/
inductive Context where
  | Background
  deriving DecidableEq, Repr

/-- Modelled from the spec: the declaration of the checkpoint type lives in the
`audit` package, which is outside `src/`.  The spec gives it as
`{treeSize, rootHash, origin, signature}`; `main` reads the first two as
`checkpoint.N` and `checkpoint.Hash`, and those names are kept.  Bytes are
natural numbers below 256. -/
structure Checkpoint where
  N : Int
  Hash : List Nat
  origin : String
  signature : List Nat
  deriving DecidableEq, Repr

/-! ## Command line flags (clone.go, lines 27-32) -/

/-- What was given on the command line: for each flag either a value or
nothing.  This is the state of the flag set after `flag.Parse()` returned;
a command line that does not parse never reaches the body of `main`
(the default flag set exits the process on a parse error). -/
structure CommandLine where
  h : Option Int
  k : Option String
  db : Option String
  x : Option Bool
  deriving DecidableEq, Repr

/-- The flag `-h`: `flag.Int("h", 8, "tile height")`. -/
def height (cl : CommandLine) : Int := cl.h.getD 8

/-- The flag `-k`: `flag.String("k", "sum.golang.org+...", "key")`. -/
def vkey (cl : CommandLine) : String :=
  cl.k.getD "sum.golang.org+033de0ae+Ac4zctda0e5eza+HJyk9SxEdh+s3Ux18htTTAD8OuAn8"

/-- The flag `-db`: `flag.String("db", "./sum.db", ...)`. -/
def db (cl : CommandLine) : String := cl.db.getD "./sum.db"

/-- The flag `-x`: `flag.Bool("x", false, ...)`. -/
def extraV (cl : CommandLine) : Bool := cl.x.getD false

/-! ## Observable events -/

/-- An argument handed to `log.Printf` or `log.Fatalf` next to the format. -/
inductive Arg where
  | int (n : Int)
  | bytes (b : List Nat)
  | hash (h : List Nat)
  | err (e : Err)
  deriving DecidableEq, Repr

/-- A call on the `audit` package, with the arguments `main` passed. -/
inductive Call where
  | NewDatabase (location : String)
  | Init (d : Database)
  | NewSumDB (height : Int) (vkey : String)
  | LatestCheckpoint (sumDB : SumDB)
  | NewService (d : Database) (sumDB : SumDB) (height : Int)
  | CloneLeafTiles (s : Service) (ctx : Context) (checkpoint : Checkpoint)
  | HashTiles (s : Service) (ctx : Context) (checkpoint : Checkpoint)
  | CheckRootHash (s : Service) (ctx : Context) (checkpoint : Checkpoint)
  | ProcessMetadata (s : Service) (ctx : Context) (checkpoint : Checkpoint)
  | VerifyTiles (s : Service) (ctx : Context) (checkpoint : Checkpoint)
  deriving DecidableEq, Repr

/-- The ten collaborator operations, by name. -/
inductive Stage where
  | NewDatabase | Init | NewSumDB | LatestCheckpoint | NewService
  | CloneLeafTiles | HashTiles | CheckRootHash | ProcessMetadata | VerifyTiles
  deriving DecidableEq, Repr

/-- The operation a call belongs to. -/
def Call.stage : Call → Stage
  | .NewDatabase _ => .NewDatabase
  | .Init _ => .Init
  | .NewSumDB _ _ => .NewSumDB
  | .LatestCheckpoint _ => .LatestCheckpoint
  | .NewService _ _ _ => .NewService
  | .CloneLeafTiles _ _ _ => .CloneLeafTiles
  | .HashTiles _ _ _ => .HashTiles
  | .CheckRootHash _ _ _ => .CheckRootHash
  | .ProcessMetadata _ _ _ => .ProcessMetadata
  | .VerifyTiles _ _ _ => .VerifyTiles

/-- The checkpoint a call was given, for the five calls that take one. -/
def Call.checkpoint? : Call → Option Checkpoint
  | .CloneLeafTiles _ _ cp => some cp
  | .HashTiles _ _ cp => some cp
  | .CheckRootHash _ _ cp => some cp
  | .ProcessMetadata _ _ cp => some cp
  | .VerifyTiles _ _ cp => some cp
  | _ => none

/-- What a call gave back when it did not fail. -/
inductive Value where
  | nil
  | database (d : Database)
  | sumDB (s : SumDB)
  | checkpoint (c : Checkpoint)
  | service (s : Service)
  deriving DecidableEq, Repr

/-- One observable step of a run. -/
inductive Event where
  | call (c : Call) (r : Except Err Value)
  | Printf (format : String) (args : List Arg)
  | Fatalf (format : String) (args : List Arg)

/-! ## The collaborators -/

/-- The `audit` package as `main` uses it.  Every operation may read and
change the world; the ones that return an `error` in Go return `some err`
(or `Except.error err`) when it is not nil. -/
structure Audit (W : Type) where
  NewDatabase : String → W → Except Err Database × W
  Init : Database → W → Option Err × W
  NewSumDB : Int → String → W → SumDB × W
  LatestCheckpoint : SumDB → W → Except Err Checkpoint × W
  NewService : Database → SumDB → Int → W → Service × W
  CloneLeafTiles : Service → Context → Checkpoint → W → Option Err × W
  HashTiles : Service → Context → Checkpoint → W → Option Err × W
  CheckRootHash : Service → Context → Checkpoint → W → Option Err × W
  ProcessMetadata : Service → Context → Checkpoint → W → Option Err × W
  VerifyTiles : Service → Context → Checkpoint → W → Option Err × W

/-- A finished run: the logger settings made at the start of `main`
(`log.SetPrefix`, `log.SetFlags`), the trace, the exit status (0 when `main`
returns, 1 after `log.Fatalf`) and the world left behind. -/
structure Run (W : Type) where
  logTag : String
  logFlags : Nat
  trace : List Event
  exit : Nat
  world : W

/-! ## `main` (clone.go, lines 38-87) -/

/-- The function `main`.  Each `if err != nil` of the source is one `match`;
`log.Fatalf` ends the run with status 1, falling off the end of the function
ends it with status 0. -/
def main {W : Type} (audit : Audit W) (cl : CommandLine) (w0 : W) : Run W :=
  let ctx := Context.Background
  let finish := fun (t : List Event) (code : Nat) (w : W) => Run.mk "clone: " 0 t code w
  match audit.NewDatabase (db cl) w0 with
  | (.error err, w1) =>
    finish [.call (.NewDatabase (db cl)) (.error err),
            .Fatalf "failed to open DB: %v" [.err err]] 1 w1
  | (.ok d, w1) =>
  let t1 := [Event.call (.NewDatabase (db cl)) (.ok (.database d))]
  match audit.Init d w1 with
  | (some err, w2) =>
    finish (t1 ++ [.call (.Init d) (.error err),
                   .Fatalf "failed to init DB: %v" [.err err]]) 1 w2
  | (none, w2) =>
  let t2 := t1 ++ [.call (.Init d) (.ok .nil)]
  match audit.NewSumDB (height cl) (vkey cl) w2 with
  | (sumDB, w3) =>
  let t3 := t2 ++ [.call (.NewSumDB (height cl) (vkey cl)) (.ok (.sumDB sumDB))]
  match audit.LatestCheckpoint sumDB w3 with
  | (.error err, w4) =>
    finish (t3 ++ [.call (.LatestCheckpoint sumDB) (.error err),
                   .Fatalf "failed to get latest checkpoint: %s" [.err err]]) 1 w4
  | (.ok checkpoint, w4) =>
  let t4 := t3 ++ [.call (.LatestCheckpoint sumDB) (.ok (.checkpoint checkpoint)),
                   .Printf "Got SumDB checkpoint for %d entries. Downloading..."
                     [.int checkpoint.N]]
  match audit.NewService d sumDB (height cl) w4 with
  | (s, w5) =>
  let t5 := t4 ++ [.call (.NewService d sumDB (height cl)) (.ok (.service s))]
  match audit.CloneLeafTiles s ctx checkpoint w5 with
  | (some err, w6) =>
    finish (t5 ++ [.call (.CloneLeafTiles s ctx checkpoint) (.error err),
                   .Fatalf "failed to update leaves: %v" [.err err]]) 1 w6
  | (none, w6) =>
  let t6 := t5 ++ [.call (.CloneLeafTiles s ctx checkpoint) (.ok .nil),
                   .Printf "Updated leaves to latest checkpoint (tree size %d). Calculating hashes..."
                     [.int checkpoint.N]]
  match audit.HashTiles s ctx checkpoint w6 with
  | (some err, w7) =>
    finish (t6 ++ [.call (.HashTiles s ctx checkpoint) (.error err),
                   .Fatalf "HashTiles: %v" [.err err]]) 1 w7
  | (none, w7) =>
  let t7 := t6 ++ [.call (.HashTiles s ctx checkpoint) (.ok .nil),
                   .Printf "Hashes updated successfully. Checking root hash..." []]
  match audit.CheckRootHash s ctx checkpoint w7 with
  | (some err, w8) =>
    finish (t7 ++ [.call (.CheckRootHash s ctx checkpoint) (.error err),
                   .Fatalf "CheckRootHash: %v" [.err err]]) 1 w8
  | (none, w8) =>
  let t8 := t7 ++ [.call (.CheckRootHash s ctx checkpoint) (.ok .nil),
                   .Printf "Cloned successfully. Tree size is %d, hash is %x (%s). Processing data..."
                     [.int checkpoint.N, .bytes checkpoint.Hash, .hash checkpoint.Hash]]
  match audit.ProcessMetadata s ctx checkpoint w8 with
  | (some err, w9) =>
    finish (t8 ++ [.call (.ProcessMetadata s ctx checkpoint) (.error err),
                   .Fatalf "ProcessMetadata: %v" [.err err]]) 1 w9
  | (none, w9) =>
  let t9 := t8 ++ [.call (.ProcessMetadata s ctx checkpoint) (.ok .nil),
                   .Printf "Leaf data processed." []]
  if extraV cl then
    let t10 := t9 ++ [.Printf "Performing extra validation on tiles..." []]
    match audit.VerifyTiles s ctx checkpoint w9 with
    | (some err, w10) =>
      finish (t10 ++ [.call (.VerifyTiles s ctx checkpoint) (.error err),
                      .Fatalf "VerifyTiles: %v" [.err err]]) 1 w10
    | (none, w10) =>
      finish (t10 ++ [.call (.VerifyTiles s ctx checkpoint) (.ok .nil),
                      .Printf "Tile verificaton passed" []]) 0 w10
  else
    finish t9 0 w9

/-! ## Reading a trace -/

/-- The calls of a trace, in order. -/
def calls : List Event → List Call
  | [] => []
  | .call c _ :: t => c :: calls t
  | _ :: t => calls t

/-- The operations invoked in a trace, in order. -/
def stages (t : List Event) : List Stage := (calls t).map Call.stage

/-- The operations that returned an error, in order. -/
def failed : List Event → List Stage
  | [] => []
  | .call c (.error _) :: t => c.stage :: failed t
  | _ :: t => failed t

/-- The operations that returned without an error, in order. -/
def succeeded : List Event → List Stage
  | [] => []
  | .call c (.ok _) :: t => c.stage :: succeeded t
  | _ :: t => succeeded t

/-- The lines handed to `log.Printf`, in order: format and arguments. -/
def printed : List Event → List (String × List Arg)
  | [] => []
  | .Printf format args :: t => (format, args) :: printed t
  | _ :: t => printed t

/-- The checkpoint returned by the first successful `LatestCheckpoint`. -/
def fetched : List Event → Option Checkpoint
  | [] => none
  | .call (.LatestCheckpoint _) (.ok (.checkpoint cp)) :: _ => some cp
  | _ :: t => fetched t

/-- The format of the `log.Fatalf` that follows an error of each operation
(clone.go, lines 47, 51, 57, 63, 68, 72, 77, 83); `NewSumDB` and `NewService`
return no error. -/
def diagnostic : Stage → Option String
  | .NewDatabase => some "failed to open DB: %v"
  | .Init => some "failed to init DB: %v"
  | .NewSumDB => none
  | .LatestCheckpoint => some "failed to get latest checkpoint: %s"
  | .NewService => none
  | .CloneLeafTiles => some "failed to update leaves: %v"
  | .HashTiles => some "HashTiles: %v"
  | .CheckRootHash => some "CheckRootHash: %v"
  | .ProcessMetadata => some "ProcessMetadata: %v"
  | .VerifyTiles => some "VerifyTiles: %v"

/-- The format of the `log.Printf` that reports each operation as done
(clone.go, lines 60, 65, 70, 74, 79, 85). -/
def completion : Stage → Option String
  | .LatestCheckpoint => some "Got SumDB checkpoint for %d entries. Downloading..."
  | .CloneLeafTiles =>
    some "Updated leaves to latest checkpoint (tree size %d). Calculating hashes..."
  | .HashTiles => some "Hashes updated successfully. Checking root hash..."
  | .CheckRootHash =>
    some "Cloned successfully. Tree size is %d, hash is %x (%s). Processing data..."
  | .ProcessMetadata => some "Leaf data processed."
  | .VerifyTiles => some "Tile verificaton passed"
  | _ => none

/-- The operations `main` runs before `VerifyTiles`. -/
def beforeVerifyTiles : List Stage :=
  [.NewDatabase, .Init, .NewSumDB, .LatestCheckpoint, .NewService, .CloneLeafTiles,
   .HashTiles, .CheckRootHash, .ProcessMetadata]

/-! ## Concrete collaborators, for evaluation -/

/-- A checkpoint of five entries. -/
def sampleCheckpoint : Checkpoint :=
  { N := 5, Hash := [222, 173, 190, 239], origin := "go.sum database tree", signature := [1, 2] }

/-- Collaborators that follow a script: `fail st` is the error operation `st`
returns, if any.  The world counts the operations performed. -/
def scripted (fail : Stage → Option Err) : Audit Nat where
  NewDatabase := fun _ w =>
    (match fail .NewDatabase with
     | some e => .error e
     | none => .ok ⟨1⟩, w + 1)
  Init := fun _ w => (fail .Init, w + 1)
  NewSumDB := fun _ _ w => (⟨2⟩, w + 1)
  LatestCheckpoint := fun _ w =>
    (match fail .LatestCheckpoint with
     | some e => .error e
     | none => .ok sampleCheckpoint, w + 1)
  NewService := fun _ _ _ w => (⟨3⟩, w + 1)
  CloneLeafTiles := fun _ _ _ w => (fail .CloneLeafTiles, w + 1)
  HashTiles := fun _ _ _ w => (fail .HashTiles, w + 1)
  CheckRootHash := fun _ _ _ w => (fail .CheckRootHash, w + 1)
  ProcessMetadata := fun _ _ _ w => (fail .ProcessMetadata, w + 1)
  VerifyTiles := fun _ _ _ w => (fail .VerifyTiles, w + 1)

/-- No operation fails. -/
def noFailure : Stage → Option Err := fun _ => none

/-- Exactly one operation fails, with the given error. -/
def failAt (st : Stage) (e : Err) : Stage → Option Err :=
  fun s => if s = st then some e else none

/-- A command line without flags. -/
def noFlags : CommandLine := { h := none, k := none, db := none, x := none }

/-- The command line `-x`. -/
def withX : CommandLine := { h := none, k := none, db := none, x := some true }

/-- Every completion line of the trace reports an operation that is in `seen`
or returned without an error earlier in the trace. -/
def ReportsAfterSuccess (seen : List Stage) : List Event → Prop
  | [] => True
  | .call c (.ok _) :: t => ReportsAfterSuccess (c.stage :: seen) t
  | .Printf format _ :: t =>
    (∀ st, completion st = some format → st ∈ seen) ∧ ReportsAfterSuccess seen t
  | _ :: t => ReportsAfterSuccess seen t

/-! ## Collaborators that keep a record

The trace of `main` is written by `main`.  To state what the collaborators
really received, they are wrapped so that each operation, when applied, runs
the wrapped operation and appends the call and its result to a record kept in
the world. -/

/-- The calls of a trace with their results, in order. -/
def callEvents : List Event → List Event
  | [] => []
  | .call c r :: t => .call c r :: callEvents t
  | _ :: t => callEvents t

/-- The result of a call that returns only an `error`. -/
def errResult : Option Err → Except Err Value
  | none => .ok .nil
  | some e => .error e

/-- The collaborators `audit`, each recording its own application. -/
def recording {W : Type} (audit : Audit W) : Audit (W × List Event) where
  NewDatabase := fun location w =>
    match audit.NewDatabase location w.1 with
    | (r, w1) => (r, (w1, w.2 ++ [.call (.NewDatabase location) (r.map .database)]))
  Init := fun d w =>
    match audit.Init d w.1 with
    | (r, w1) => (r, (w1, w.2 ++ [.call (.Init d) (errResult r)]))
  NewSumDB := fun h k w =>
    match audit.NewSumDB h k w.1 with
    | (r, w1) => (r, (w1, w.2 ++ [.call (.NewSumDB h k) (.ok (.sumDB r))]))
  LatestCheckpoint := fun sumDB w =>
    match audit.LatestCheckpoint sumDB w.1 with
    | (r, w1) => (r, (w1, w.2 ++ [.call (.LatestCheckpoint sumDB) (r.map .checkpoint)]))
  NewService := fun d sumDB h w =>
    match audit.NewService d sumDB h w.1 with
    | (r, w1) => (r, (w1, w.2 ++ [.call (.NewService d sumDB h) (.ok (.service r))]))
  CloneLeafTiles := fun s ctx cp w =>
    match audit.CloneLeafTiles s ctx cp w.1 with
    | (r, w1) => (r, (w1, w.2 ++ [.call (.CloneLeafTiles s ctx cp) (errResult r)]))
  HashTiles := fun s ctx cp w =>
    match audit.HashTiles s ctx cp w.1 with
    | (r, w1) => (r, (w1, w.2 ++ [.call (.HashTiles s ctx cp) (errResult r)]))
  CheckRootHash := fun s ctx cp w =>
    match audit.CheckRootHash s ctx cp w.1 with
    | (r, w1) => (r, (w1, w.2 ++ [.call (.CheckRootHash s ctx cp) (errResult r)]))
  ProcessMetadata := fun s ctx cp w =>
    match audit.ProcessMetadata s ctx cp w.1 with
    | (r, w1) => (r, (w1, w.2 ++ [.call (.ProcessMetadata s ctx cp) (errResult r)]))
  VerifyTiles := fun s ctx cp w =>
    match audit.VerifyTiles s ctx cp w.1 with
    | (r, w1) => (r, (w1, w.2 ++ [.call (.VerifyTiles s ctx cp) (errResult r)]))

/-- The run of `main` against the recording collaborators, from an empty
record. -/
def observed {W : Type} (audit : Audit W) (cl : CommandLine) (w : W) :
    Run (W × List Event) :=
  main (recording audit) cl (w, [])

/-- The calls the collaborators received during the run of `main`, with what
they returned, in the order they were applied. -/
def recorded {W : Type} (audit : Audit W) (cl : CommandLine) (w : W) : List Event :=
  (observed audit cl w).world.2

/-! ## The runs of `main`

`main` has eleven ways to end: one for each of the eight operations that can
fail, two for a normal return (with and without `-x`).  `Shape` lists the
trace and the exit status of each. -/

/-- The trace up to the checkpoint, when nothing failed so far (lines 45-60). -/
def uptoCheckpoint (cl : CommandLine) (d : Database) (sumDB : SumDB) (cp : Checkpoint) :
    List Event :=
  [.call (.NewDatabase (db cl)) (.ok (.database d)),
   .call (.Init d) (.ok .nil),
   .call (.NewSumDB (height cl) (vkey cl)) (.ok (.sumDB sumDB)),
   .call (.LatestCheckpoint sumDB) (.ok (.checkpoint cp)),
   .Printf "Got SumDB checkpoint for %d entries. Downloading..." [.int cp.N]]

/-- The trace up to the cloned leaves, when nothing failed so far (lines 45-65). -/
def uptoClone (cl : CommandLine) (d : Database) (sumDB : SumDB) (cp : Checkpoint)
    (s : Service) : List Event :=
  uptoCheckpoint cl d sumDB cp ++
  [.call (.NewService d sumDB (height cl)) (.ok (.service s)),
   .call (.CloneLeafTiles s .Background cp) (.ok .nil),
   .Printf "Updated leaves to latest checkpoint (tree size %d). Calculating hashes..."
     [.int cp.N]]

/-- The trace up to the root check, when nothing failed so far (lines 45-74). -/
def uptoRoot (cl : CommandLine) (d : Database) (sumDB : SumDB) (cp : Checkpoint)
    (s : Service) : List Event :=
  uptoClone cl d sumDB cp s ++
  [.call (.HashTiles s .Background cp) (.ok .nil),
   .Printf "Hashes updated successfully. Checking root hash..." [],
   .call (.CheckRootHash s .Background cp) (.ok .nil),
   .Printf "Cloned successfully. Tree size is %d, hash is %x (%s). Processing data..."
     [.int cp.N, .bytes cp.Hash, .hash cp.Hash]]

/-- The trace up to the processed metadata, when nothing failed (lines 45-79). -/
def uptoMetadata (cl : CommandLine) (d : Database) (sumDB : SumDB) (cp : Checkpoint)
    (s : Service) : List Event :=
  uptoRoot cl d sumDB cp s ++
  [.call (.ProcessMetadata s .Background cp) (.ok .nil),
   .Printf "Leaf data processed." []]

/-- The possible pairs of trace and exit status of `main`. -/
inductive Shape (cl : CommandLine) : List Event → Nat → Prop where
  | failNewDatabase (err : Err) :
    Shape cl [.call (.NewDatabase (db cl)) (.error err),
              .Fatalf "failed to open DB: %v" [.err err]] 1
  | failInit (d : Database) (err : Err) :
    Shape cl [.call (.NewDatabase (db cl)) (.ok (.database d)),
              .call (.Init d) (.error err),
              .Fatalf "failed to init DB: %v" [.err err]] 1
  | failLatestCheckpoint (d : Database) (sumDB : SumDB) (err : Err) :
    Shape cl [.call (.NewDatabase (db cl)) (.ok (.database d)),
              .call (.Init d) (.ok .nil),
              .call (.NewSumDB (height cl) (vkey cl)) (.ok (.sumDB sumDB)),
              .call (.LatestCheckpoint sumDB) (.error err),
              .Fatalf "failed to get latest checkpoint: %s" [.err err]] 1
  | failCloneLeafTiles (d : Database) (sumDB : SumDB) (cp : Checkpoint) (s : Service)
      (err : Err) :
    Shape cl (uptoCheckpoint cl d sumDB cp ++
              [.call (.NewService d sumDB (height cl)) (.ok (.service s)),
               .call (.CloneLeafTiles s .Background cp) (.error err),
               .Fatalf "failed to update leaves: %v" [.err err]]) 1
  | failHashTiles (d : Database) (sumDB : SumDB) (cp : Checkpoint) (s : Service)
      (err : Err) :
    Shape cl (uptoClone cl d sumDB cp s ++
              [.call (.HashTiles s .Background cp) (.error err),
               .Fatalf "HashTiles: %v" [.err err]]) 1
  | failCheckRootHash (d : Database) (sumDB : SumDB) (cp : Checkpoint) (s : Service)
      (err : Err) :
    Shape cl (uptoClone cl d sumDB cp s ++
              [.call (.HashTiles s .Background cp) (.ok .nil),
               .Printf "Hashes updated successfully. Checking root hash..." [],
               .call (.CheckRootHash s .Background cp) (.error err),
               .Fatalf "CheckRootHash: %v" [.err err]]) 1
  | failProcessMetadata (d : Database) (sumDB : SumDB) (cp : Checkpoint) (s : Service)
      (err : Err) :
    Shape cl (uptoRoot cl d sumDB cp s ++
              [.call (.ProcessMetadata s .Background cp) (.error err),
               .Fatalf "ProcessMetadata: %v" [.err err]]) 1
  | failVerifyTiles (d : Database) (sumDB : SumDB) (cp : Checkpoint) (s : Service)
      (err : Err) (hx : extraV cl = true) :
    Shape cl (uptoMetadata cl d sumDB cp s ++
              [.Printf "Performing extra validation on tiles..." [],
               .call (.VerifyTiles s .Background cp) (.error err),
               .Fatalf "VerifyTiles: %v" [.err err]]) 1
  | verified (d : Database) (sumDB : SumDB) (cp : Checkpoint) (s : Service)
      (hx : extraV cl = true) :
    Shape cl (uptoMetadata cl d sumDB cp s ++
              [.Printf "Performing extra validation on tiles..." [],
               .call (.VerifyTiles s .Background cp) (.ok .nil),
               .Printf "Tile verificaton passed" []]) 0
  | done (d : Database) (sumDB : SumDB) (cp : Checkpoint) (s : Service)
      (hx : extraV cl = false) :
    Shape cl (uptoMetadata cl d sumDB cp s) 0

/-! ## Lemmas -/

/-- Every run of `main` has one of the shapes. -/
theorem main_shape {W : Type} (audit : Audit W) (cl : CommandLine) (w : W) :
    Shape cl (main audit cl w).trace (main audit cl w).exit := by
  unfold main
  rcases h1 : audit.NewDatabase (db cl) w with ⟨_ | d, w1⟩
  · exact Shape.failNewDatabase _
  rcases h2 : audit.Init d w1 with ⟨_ | _, w2⟩
  swap
  · simp only [h2]; exact Shape.failInit _ _
  rcases h3 : audit.NewSumDB (height cl) (vkey cl) w2 with ⟨sumDB, w3⟩
  rcases h4 : audit.LatestCheckpoint sumDB w3 with ⟨_ | cp, w4⟩
  · simp only [h2, h3, h4]; exact Shape.failLatestCheckpoint _ _ _
  rcases h5 : audit.NewService d sumDB (height cl) w4 with ⟨s, w5⟩
  rcases h6 : audit.CloneLeafTiles s .Background cp w5 with ⟨_ | _, w6⟩
  swap
  · simp only [h2, h3, h4, h5, h6]; exact Shape.failCloneLeafTiles _ _ _ _ _
  rcases h7 : audit.HashTiles s .Background cp w6 with ⟨_ | _, w7⟩
  swap
  · simp only [h2, h3, h4, h5, h6, h7]; exact Shape.failHashTiles _ _ _ _ _
  rcases h8 : audit.CheckRootHash s .Background cp w7 with ⟨_ | _, w8⟩
  swap
  · simp only [h2, h3, h4, h5, h6, h7, h8]; exact Shape.failCheckRootHash _ _ _ _ _
  rcases h9 : audit.ProcessMetadata s .Background cp w8 with ⟨_ | _, w9⟩
  swap
  · simp only [h2, h3, h4, h5, h6, h7, h8, h9]; exact Shape.failProcessMetadata _ _ _ _ _
  by_cases hx : extraV cl = true
  · rcases h10 : audit.VerifyTiles s .Background cp w9 with ⟨_ | _, w10⟩
    · simp only [h2, h3, h4, h5, h6, h7, h8, h9, h10, hx, if_true]
      exact Shape.verified _ _ _ _ hx
    · simp only [h2, h3, h4, h5, h6, h7, h8, h9, h10, hx, if_true]
      exact Shape.failVerifyTiles _ _ _ _ _ hx
  · simp only [h2, h3, h4, h5, h6, h7, h8, h9, hx]
    exact Shape.done _ _ _ _ (by simpa using hx)

/-- Two operations with the same diagnostic format are the same operation. -/
theorem diagnostic_injective (s1 s2 : Stage) (f : String)
    (h1 : diagnostic s1 = some f) (h2 : diagnostic s2 = some f) : s1 = s2 := by
  cases s1 <;> cases s2 <;>
    simp only [diagnostic, reduceCtorEq, Option.some.injEq] at h1 h2 ⊢ <;>
    (subst h1; simp at h2)

/-- What `ReportsAfterSuccess` says about one line of the trace. -/
theorem ReportsAfterSuccess.at_line (st : Stage) (format : String) (args : List Arg)
    (post : List Event) (hc : completion st = some format) :
    ∀ (pre : List Event) (seen : List Stage),
      ReportsAfterSuccess seen (pre ++ .Printf format args :: post) →
      st ∈ seen ∨ st ∈ succeeded pre := by
  intro pre
  induction pre with
  | nil =>
    intro seen h
    exact Or.inl (h.1 st hc)
  | cons e pre ih =>
    intro seen h
    cases e with
    | call c r =>
      cases r with
      | error err =>
        rcases ih seen h with h1 | h1
        · exact Or.inl h1
        · exact Or.inr (by simpa [succeeded] using h1)
      | ok v =>
        rcases ih (c.stage :: seen) h with h1 | h1
        · rcases List.mem_cons.1 h1 with h2 | h2
          · exact Or.inr (by simp [succeeded, h2])
          · exact Or.inl h2
        · exact Or.inr (by simp [succeeded, h1])
    | Printf f a =>
      rcases ih seen h.2 with h1 | h1
      · exact Or.inl h1
      · exact Or.inr (by simpa [succeeded] using h1)
    | Fatalf f a =>
      rcases ih seen h with h1 | h1
      · exact Or.inl h1
      · exact Or.inr (by simpa [succeeded] using h1)

/-- The record kept by the collaborators is the list of calls in the trace:
`main` reports every application it makes, with the arguments it passed and
the result it got, and reports nothing else. -/
theorem recorded_eq {W : Type} (audit : Audit W) (cl : CommandLine) (w : W) :
    recorded audit cl w = callEvents (observed audit cl w).trace := by
  unfold recorded observed main
  rcases h1 : audit.NewDatabase (db cl) w with ⟨_ | d, w1⟩
  · simp [recording, h1, callEvents, Except.map]
  rcases h2 : audit.Init d w1 with ⟨_ | _, w2⟩
  swap
  · simp [recording, h1, h2, callEvents, Except.map, errResult]
  rcases h3 : audit.NewSumDB (height cl) (vkey cl) w2 with ⟨sumDB, w3⟩
  rcases h4 : audit.LatestCheckpoint sumDB w3 with ⟨_ | cp, w4⟩
  · simp [recording, h1, h2, h3, h4, callEvents, Except.map, errResult]
  rcases h5 : audit.NewService d sumDB (height cl) w4 with ⟨s, w5⟩
  rcases h6 : audit.CloneLeafTiles s .Background cp w5 with ⟨_ | _, w6⟩
  swap
  · simp [recording, h1, h2, h3, h4, h5, h6, callEvents, Except.map, errResult]
  rcases h7 : audit.HashTiles s .Background cp w6 with ⟨_ | _, w7⟩
  swap
  · simp [recording, h1, h2, h3, h4, h5, h6, h7, callEvents, Except.map, errResult]
  rcases h8 : audit.CheckRootHash s .Background cp w7 with ⟨_ | _, w8⟩
  swap
  · simp [recording, h1, h2, h3, h4, h5, h6, h7, h8, callEvents, Except.map, errResult]
  rcases h9 : audit.ProcessMetadata s .Background cp w8 with ⟨_ | _, w9⟩
  swap
  · simp [recording, h1, h2, h3, h4, h5, h6, h7, h8, h9, callEvents, Except.map, errResult]
  by_cases hx : extraV cl = true
  · rcases h10 : audit.VerifyTiles s .Background cp w9 with ⟨_ | _, w10⟩ <;>
      simp [recording, h1, h2, h3, h4, h5, h6, h7, h8, h9, h10, hx, callEvents, Except.map,
        errResult]
  · simp [recording, h1, h2, h3, h4, h5, h6, h7, h8, h9, hx, callEvents, Except.map,
      errResult]

/-- Running `main` against the recording collaborators changes neither the
trace nor the exit status nor the world of the wrapped collaborators. -/
theorem observed_same {W : Type} (audit : Audit W) (cl : CommandLine) (w : W) :
    (observed audit cl w).trace = (main audit cl w).trace ∧
    (observed audit cl w).exit = (main audit cl w).exit ∧
    (observed audit cl w).world.1 = (main audit cl w).world := by
  unfold observed main
  rcases h1 : audit.NewDatabase (db cl) w with ⟨_ | d, w1⟩
  · simp [recording, h1]
  rcases h2 : audit.Init d w1 with ⟨_ | _, w2⟩
  swap
  · simp [recording, h1, h2]
  rcases h3 : audit.NewSumDB (height cl) (vkey cl) w2 with ⟨sumDB, w3⟩
  rcases h4 : audit.LatestCheckpoint sumDB w3 with ⟨_ | cp, w4⟩
  · simp [recording, h1, h2, h3, h4]
  rcases h5 : audit.NewService d sumDB (height cl) w4 with ⟨s, w5⟩
  rcases h6 : audit.CloneLeafTiles s .Background cp w5 with ⟨_ | _, w6⟩
  swap
  · simp [recording, h1, h2, h3, h4, h5, h6]
  rcases h7 : audit.HashTiles s .Background cp w6 with ⟨_ | _, w7⟩
  swap
  · simp [recording, h1, h2, h3, h4, h5, h6, h7]
  rcases h8 : audit.CheckRootHash s .Background cp w7 with ⟨_ | _, w8⟩
  swap
  · simp [recording, h1, h2, h3, h4, h5, h6, h7, h8]
  rcases h9 : audit.ProcessMetadata s .Background cp w8 with ⟨_ | _, w9⟩
  swap
  · simp [recording, h1, h2, h3, h4, h5, h6, h7, h8, h9]
  by_cases hx : extraV cl = true
  · rcases h10 : audit.VerifyTiles s .Background cp w9 with ⟨_ | _, w10⟩ <;>
      simp [recording, h1, h2, h3, h4, h5, h6, h7, h8, h9, h10, hx]
  · simp [recording, h1, h2, h3, h4, h5, h6, h7, h8, h9, hx]

/-- The calls of a concatenation. -/
theorem callEvents_append (a b : List Event) :
    callEvents (a ++ b) = callEvents a ++ callEvents b := by
  induction a with
  | nil => rfl
  | cons e a ih => cases e <;> simp [callEvents, ih]

/-- Dropping the log lines does not change which operations failed. -/
theorem failed_callEvents (t : List Event) : failed (callEvents t) = failed t := by
  induction t with
  | nil => rfl
  | cons e t ih =>
    cases e with
    | call c r => cases r <;> simp [callEvents, failed, ih]
    | Printf f a => simpa [callEvents, failed] using ih
    | Fatalf f a => simpa [callEvents, failed] using ih

/-- Dropping the log lines does not change which operations succeeded. -/
theorem succeeded_callEvents (t : List Event) : succeeded (callEvents t) = succeeded t := by
  induction t with
  | nil => rfl
  | cons e t ih =>
    cases e with
    | call c r => cases r <;> simp [callEvents, succeeded, ih]
    | Printf f a => simpa [callEvents, succeeded] using ih
    | Fatalf f a => simpa [callEvents, succeeded] using ih

/-- Dropping the log lines does not change which operations were invoked. -/
theorem stages_callEvents (t : List Event) : stages (callEvents t) = stages t := by
  unfold stages
  congr 1
  induction t with
  | nil => rfl
  | cons e t ih => cases e <;> simp [callEvents, calls, ih]

/-- A call is in the list of calls of a trace exactly when it is in the trace. -/
theorem mem_callEvents (c : Call) (r : Except Err Value) (t : List Event) :
    Event.call c r ∈ callEvents t ↔ Event.call c r ∈ t := by
  induction t with
  | nil => simp [callEvents]
  | cons e t ih => cases e <;> simp [callEvents, ih]

/-! ## The claims -/

/-- C1: in a run where no call received by the collaborators returns an error,
the collaborators are applied once each and in the order NewDatabase, Init,
NewSumDB, LatestCheckpoint, NewService, CloneLeafTiles, HashTiles,
CheckRootHash, ProcessMetadata, VerifyTiles when `-x` is set, and in the same
order without VerifyTiles when `-x` is not set.  The calls are read from the
record the collaborators keep themselves. -/
theorem main_call_order {W : Type} (audit : Audit W) (cl : CommandLine) (w : W)
    (hok : failed (recorded audit cl w) = []) :
    (extraV cl = true →
      stages (recorded audit cl w) =
        [.NewDatabase, .Init, .NewSumDB, .LatestCheckpoint, .NewService, .CloneLeafTiles,
         .HashTiles, .CheckRootHash, .ProcessMetadata, .VerifyTiles]) ∧
    (extraV cl = false →
      stages (recorded audit cl w) =
        [.NewDatabase, .Init, .NewSumDB, .LatestCheckpoint, .NewService, .CloneLeafTiles,
         .HashTiles, .CheckRootHash, .ProcessMetadata]) := by
  have hs := main_shape (recording audit) cl (w, [])
  rw [recorded_eq, failed_callEvents] at hok
  rw [recorded_eq, stages_callEvents]
  unfold observed at hok ⊢
  revert hok
  generalize (main (recording audit) cl (w, [])).trace = t at hs ⊢
  generalize (main (recording audit) cl (w, [])).exit = e at hs
  cases hs <;>
    simp_all [failed, stages, calls, Call.stage, uptoMetadata, uptoRoot, uptoClone,
      uptoCheckpoint]

/-- Witness for C1: a run with `-x` in which nothing fails. -/
theorem main_call_order_witness :
    failed (recorded (scripted noFailure) withX 0) = [] ∧
    stages (recorded (scripted noFailure) withX 0) =
      [.NewDatabase, .Init, .NewSumDB, .LatestCheckpoint, .NewService, .CloneLeafTiles,
       .HashTiles, .CheckRootHash, .ProcessMetadata, .VerifyTiles] ∧
    (observed (scripted noFailure) withX 0).world.1 = 10 :=
  ⟨by decide, (main_call_order (scripted noFailure) withX 0 (by decide)).1 (by decide),
   by decide⟩

/-- C2: when a call returns an error, the run ends with status 1, the trace
ends with that call followed by a `log.Fatalf` whose format is the one of the
failing operation and whose argument is the error, no call before it failed,
and the formats of distinct operations are distinct. -/
theorem main_error_is_fatal {W : Type} (audit : Audit W) (cl : CommandLine) (w : W)
    (c : Call) (err : Err)
    (h : Event.call c (.error err) ∈ (main audit cl w).trace) :
    (main audit cl w).exit = 1 ∧
    (∃ fmt pre, diagnostic c.stage = some fmt ∧ failed pre = [] ∧
      (main audit cl w).trace = pre ++ [.call c (.error err), .Fatalf fmt [.err err]]) ∧
    (∀ s1 s2 f, diagnostic s1 = some f → diagnostic s2 = some f → s1 = s2) := by
  have hs := main_shape audit cl w
  revert h
  generalize (main audit cl w).trace = t at hs ⊢
  generalize (main audit cl w).exit = e at hs ⊢
  intro h
  refine ⟨?_, ⟨(diagnostic c.stage).getD "", t.dropLast.dropLast, ?_, ?_, ?_⟩,
    diagnostic_injective⟩
  all_goals
    cases hs <;>
      simp [uptoMetadata, uptoRoot, uptoClone, uptoCheckpoint] at h ⊢ <;>
      (try obtain ⟨rfl, rfl⟩ := h) <;>
      simp [diagnostic, Call.stage, failed]

/-- Witness for C2: the hashing stage fails. -/
theorem main_error_is_fatal_witness :
    Event.call (.HashTiles ⟨3⟩ .Background sampleCheckpoint) (.error "disk full") ∈
      (main (scripted (failAt .HashTiles "disk full")) noFlags 0).trace ∧
    (main (scripted (failAt .HashTiles "disk full")) noFlags 0).exit = 1 :=
  ⟨by simp [main, scripted, failAt],
   (main_error_is_fatal (scripted (failAt .HashTiles "disk full")) noFlags 0
      (.HashTiles ⟨3⟩ .Background sampleCheckpoint) "disk full"
      (by simp [main, scripted, failAt])).1⟩

/-- C3: when `LatestCheckpoint` returns an error the run ends with status 1
and the only operations invoked are NewDatabase, Init, NewSumDB and
LatestCheckpoint: neither NewService nor CloneLeafTiles nor any later
operation is called. -/
theorem main_aborts_before_cloning {W : Type} (audit : Audit W) (cl : CommandLine) (w : W)
    (sumDB : SumDB) (err : Err)
    (h : Event.call (.LatestCheckpoint sumDB) (.error err) ∈ (main audit cl w).trace) :
    (main audit cl w).exit = 1 ∧
    stages (main audit cl w).trace =
      [.NewDatabase, .Init, .NewSumDB, .LatestCheckpoint] := by
  have hs := main_shape audit cl w
  revert h
  generalize (main audit cl w).trace = t at hs ⊢
  generalize (main audit cl w).exit = e at hs ⊢
  cases hs <;>
    simp [uptoMetadata, uptoRoot, uptoClone, uptoCheckpoint, stages, calls, Call.stage]

/-- Witness for C3: the checkpoint cannot be fetched. -/
theorem main_aborts_before_cloning_witness :
    Event.call (.LatestCheckpoint ⟨2⟩) (.error "invalid signature") ∈
      (main (scripted (failAt .LatestCheckpoint "invalid signature")) withX 0).trace ∧
    stages (main (scripted (failAt .LatestCheckpoint "invalid signature")) withX 0).trace =
      [.NewDatabase, .Init, .NewSumDB, .LatestCheckpoint] :=
  ⟨by simp [main, scripted, failAt],
   (main_aborts_before_cloning (scripted (failAt .LatestCheckpoint "invalid signature"))
      withX 0 ⟨2⟩ "invalid signature" (by simp [main, scripted, failAt])).2⟩

/-- C4: when `CheckRootHash` returns an error the run ends with status 1, its
last event is the `log.Fatalf` carrying that error, the line
"Cloned successfully..." is not logged, and neither ProcessMetadata nor
VerifyTiles is invoked. -/
theorem main_stops_at_root_mismatch {W : Type} (audit : Audit W) (cl : CommandLine) (w : W)
    (s : Service) (ctx : Context) (cp : Checkpoint) (err : Err)
    (h : Event.call (.CheckRootHash s ctx cp) (.error err) ∈ (main audit cl w).trace) :
    (main audit cl w).exit = 1 ∧
    (main audit cl w).trace.getLast? = some (.Fatalf "CheckRootHash: %v" [.err err]) ∧
    (∀ args, ("Cloned successfully. Tree size is %d, hash is %x (%s). Processing data...",
        args) ∉ printed (main audit cl w).trace) ∧
    Stage.ProcessMetadata ∉ stages (main audit cl w).trace ∧
    Stage.VerifyTiles ∉ stages (main audit cl w).trace := by
  have hs := main_shape audit cl w
  revert h
  generalize (main audit cl w).trace = t at hs ⊢
  generalize (main audit cl w).exit = e at hs ⊢
  cases hs <;>
    simp [uptoMetadata, uptoRoot, uptoClone, uptoCheckpoint, stages, calls, Call.stage,
      printed]
  intro _ _ h
  exact h.symm

/-- Witness for C4: the recomputed root differs from the checkpoint. -/
theorem main_stops_at_root_mismatch_witness :
    Event.call (.CheckRootHash ⟨3⟩ .Background sampleCheckpoint) (.error "root mismatch") ∈
      (main (scripted (failAt .CheckRootHash "root mismatch")) withX 0).trace ∧
    (main (scripted (failAt .CheckRootHash "root mismatch")) withX 0).exit = 1 ∧
    Stage.ProcessMetadata ∉
      stages (main (scripted (failAt .CheckRootHash "root mismatch")) withX 0).trace :=
  ⟨by simp [main, scripted, failAt],
   (main_stops_at_root_mismatch (scripted (failAt .CheckRootHash "root mismatch")) withX 0
      ⟨3⟩ .Background sampleCheckpoint "root mismatch"
      (by simp [main, scripted, failAt])).1,
   (main_stops_at_root_mismatch (scripted (failAt .CheckRootHash "root mismatch")) withX 0
      ⟨3⟩ .Background sampleCheckpoint "root mismatch"
      (by simp [main, scripted, failAt])).2.2.2.1⟩

/-- C5: when `main` returns (exit status 0), the collaborators were really
applied: their record holds a LatestCheckpoint call that returned a
checkpoint, and CloneLeafTiles, HashTiles and CheckRootHash calls on that
checkpoint that each returned no error. -/
theorem main_success_means_verified {W : Type} (audit : Audit W) (cl : CommandLine) (w : W)
    (h : (observed audit cl w).exit = 0) :
    ∃ sumDB s cp,
      Event.call (.LatestCheckpoint sumDB) (.ok (.checkpoint cp)) ∈ recorded audit cl w ∧
      Event.call (.CloneLeafTiles s .Background cp) (.ok .nil) ∈ recorded audit cl w ∧
      Event.call (.HashTiles s .Background cp) (.ok .nil) ∈ recorded audit cl w ∧
      Event.call (.CheckRootHash s .Background cp) (.ok .nil) ∈ recorded audit cl w := by
  have hs := main_shape (recording audit) cl (w, [])
  simp only [recorded_eq, mem_callEvents]
  unfold observed at h ⊢
  revert h
  generalize (main (recording audit) cl (w, [])).trace = t at hs ⊢
  generalize (main (recording audit) cl (w, [])).exit = e at hs ⊢
  cases hs with
  | verified d sumDB cp s hx =>
    intro _
    exact ⟨sumDB, s, cp, by simp [uptoMetadata, uptoRoot, uptoClone, uptoCheckpoint]⟩
  | done d sumDB cp s hx =>
    intro _
    exact ⟨sumDB, s, cp, by simp [uptoMetadata, uptoRoot, uptoClone, uptoCheckpoint]⟩
  | _ => simp

/-- Witness for C5: a run without flags in which nothing fails; the nine
operations were applied. -/
theorem main_success_means_verified_witness :
    (observed (scripted noFailure) noFlags 0).exit = 0 ∧
    (observed (scripted noFailure) noFlags 0).world.1 = 9 ∧
    ∃ sumDB s cp,
      Event.call (.LatestCheckpoint sumDB) (.ok (.checkpoint cp)) ∈
        recorded (scripted noFailure) noFlags 0 ∧
      Event.call (.CloneLeafTiles s .Background cp) (.ok .nil) ∈
        recorded (scripted noFailure) noFlags 0 ∧
      Event.call (.HashTiles s .Background cp) (.ok .nil) ∈
        recorded (scripted noFailure) noFlags 0 ∧
      Event.call (.CheckRootHash s .Background cp) (.ok .nil) ∈
        recorded (scripted noFailure) noFlags 0 :=
  ⟨by decide, by decide,
   main_success_means_verified (scripted noFailure) noFlags 0 (by decide)⟩

/-- C6, as stated, fails: when the database cannot be opened `LatestCheckpoint`
is not called at all. -/
theorem main_may_fetch_no_checkpoint :
    ¬ ((stages (main (scripted (failAt .NewDatabase "unable to open database file"))
        noFlags 0).trace).count .LatestCheckpoint = 1) := by
  decide

/-- C6, amended: `LatestCheckpoint` is called at most once in a run, and
exactly once precisely when NewDatabase and Init returned no error; every
operation that takes a checkpoint is given the one `LatestCheckpoint`
returned. -/
theorem main_single_checkpoint {W : Type} (audit : Audit W) (cl : CommandLine) (w : W) :
    (stages (main audit cl w).trace).count .LatestCheckpoint ≤ 1 ∧
    ((stages (main audit cl w).trace).count .LatestCheckpoint = 1 ↔
      Stage.NewDatabase ∈ succeeded (main audit cl w).trace ∧
      Stage.Init ∈ succeeded (main audit cl w).trace) ∧
    (∀ c r cp, Event.call c r ∈ (main audit cl w).trace → c.checkpoint? = some cp →
      fetched (main audit cl w).trace = some cp) := by
  have hs := main_shape audit cl w
  generalize (main audit cl w).trace = t at hs ⊢
  generalize (main audit cl w).exit = e at hs
  refine ⟨?_, ?_, ?_⟩
  · cases hs <;>
      simp [uptoMetadata, uptoRoot, uptoClone, uptoCheckpoint, stages, calls, Call.stage]
  · cases hs <;>
      simp [uptoMetadata, uptoRoot, uptoClone, uptoCheckpoint, stages, calls, Call.stage,
        succeeded]
  · intro c r cp hmem hcp
    cases c <;> simp only [Call.checkpoint?, reduceCtorEq, Option.some.injEq] at hcp <;>
      subst hcp <;> cases hs <;>
      simp_all [uptoMetadata, uptoRoot, uptoClone, uptoCheckpoint, fetched]

/-- Witness for C6, amended: with `-x`, VerifyTiles gets the fetched checkpoint. -/
theorem main_single_checkpoint_witness :
    fetched (main (scripted noFailure) withX 0).trace = some sampleCheckpoint :=
  (main_single_checkpoint (scripted noFailure) withX 0).2.2
    (.VerifyTiles ⟨3⟩ .Background sampleCheckpoint) (.ok .nil) sampleCheckpoint
    (by simp [main, scripted, noFailure, withX, extraV]) rfl

/-- C7: the collaborators receive a VerifyTiles call exactly when `-x` is set
and each of the nine operations before it was applied and returned no error;
when `-x` is not given on the command line (the default, false) VerifyTiles is
not applied.  The calls are read from the record the collaborators keep. -/
theorem main_verifyTiles_iff {W : Type} (audit : Audit W) (cl : CommandLine) (w : W) :
    (Stage.VerifyTiles ∈ stages (recorded audit cl w) ↔
      extraV cl = true ∧ ∀ st ∈ beforeVerifyTiles, st ∈ succeeded (recorded audit cl w)) ∧
    (cl.x = none → Stage.VerifyTiles ∉ stages (recorded audit cl w)) := by
  have hs := main_shape (recording audit) cl (w, [])
  rw [recorded_eq, stages_callEvents, succeeded_callEvents]
  unfold observed
  generalize (main (recording audit) cl (w, [])).trace = t at hs ⊢
  generalize (main (recording audit) cl (w, [])).exit = e at hs
  have key : Stage.VerifyTiles ∈ stages t ↔
      extraV cl = true ∧ ∀ st ∈ beforeVerifyTiles, st ∈ succeeded t := by
    simp only [beforeVerifyTiles, List.forall_mem_cons]
    cases hs <;>
      simp_all [uptoMetadata, uptoRoot, uptoClone, uptoCheckpoint, stages, calls, Call.stage,
        succeeded]
  refine ⟨key, fun hnone hmem => ?_⟩
  have hx := (key.1 hmem).1
  simp [extraV, hnone] at hx

/-- Witness for C7: without flags VerifyTiles is not applied (nine
applications), with `-x` it is (ten). -/
theorem main_verifyTiles_iff_witness :
    (Stage.VerifyTiles ∉ stages (recorded (scripted noFailure) noFlags 0) ∧
      (observed (scripted noFailure) noFlags 0).world.1 = 9) ∧
    (Stage.VerifyTiles ∈ stages (recorded (scripted noFailure) withX 0) ∧
      (observed (scripted noFailure) withX 0).world.1 = 10) :=
  ⟨⟨(main_verifyTiles_iff (scripted noFailure) noFlags 0).2 rfl, by decide⟩,
   ⟨(main_verifyTiles_iff (scripted noFailure) withX 0).1.2 ⟨rfl, by decide⟩, by decide⟩⟩

/-- C8, as stated, fails: with `-x`, the clone, hash and root-check stages
succeeding and ProcessMetadata returning an error, the run exits with status 1
and VerifyTiles is not invoked. -/
theorem main_metadata_error_aborts :
    Stage.CloneLeafTiles ∈
      succeeded (main (scripted (failAt .ProcessMetadata "malformed leaf")) withX 0).trace ∧
    Stage.HashTiles ∈
      succeeded (main (scripted (failAt .ProcessMetadata "malformed leaf")) withX 0).trace ∧
    Stage.CheckRootHash ∈
      succeeded (main (scripted (failAt .ProcessMetadata "malformed leaf")) withX 0).trace ∧
    Stage.ProcessMetadata ∈
      failed (main (scripted (failAt .ProcessMetadata "malformed leaf")) withX 0).trace ∧
    extraV withX = true ∧
    (main (scripted (failAt .ProcessMetadata "malformed leaf")) withX 0).exit = 1 ∧
    Stage.VerifyTiles ∉
      stages (main (scripted (failAt .ProcessMetadata "malformed leaf")) withX 0).trace := by
  decide

/-- C8, amended: an error returned by ProcessMetadata is fatal.  The clone,
hash and root-check stages have succeeded, the run ends with status 1, its last
event is `log.Fatalf "ProcessMetadata: %v"` with that error, the line
"Leaf data processed." is not logged and VerifyTiles is not invoked. -/
theorem main_metadata_error_is_fatal {W : Type} (audit : Audit W) (cl : CommandLine) (w : W)
    (s : Service) (ctx : Context) (cp : Checkpoint) (err : Err)
    (h : Event.call (.ProcessMetadata s ctx cp) (.error err) ∈ (main audit cl w).trace) :
    (main audit cl w).exit = 1 ∧
    (main audit cl w).trace.getLast? = some (.Fatalf "ProcessMetadata: %v" [.err err]) ∧
    (∀ st ∈ [Stage.CloneLeafTiles, .HashTiles, .CheckRootHash],
      st ∈ succeeded (main audit cl w).trace) ∧
    (∀ args, ("Leaf data processed.", args) ∉ printed (main audit cl w).trace) ∧
    Stage.VerifyTiles ∉ stages (main audit cl w).trace := by
  have hs := main_shape audit cl w
  revert h
  generalize (main audit cl w).trace = t at hs ⊢
  generalize (main audit cl w).exit = e at hs ⊢
  cases hs <;>
    simp [uptoMetadata, uptoRoot, uptoClone, uptoCheckpoint, stages, calls, Call.stage,
      printed, succeeded]
  intro _ _ h
  exact h.symm

/-- Witness for C8, amended: the metadata stage fails in a run with `-x`. -/
theorem main_metadata_error_is_fatal_witness :
    Event.call (.ProcessMetadata ⟨3⟩ .Background sampleCheckpoint)
        (.error "malformed leaf") ∈
      (main (scripted (failAt .ProcessMetadata "malformed leaf")) withX 0).trace ∧
    (main (scripted (failAt .ProcessMetadata "malformed leaf")) withX 0).trace.getLast? =
      some (.Fatalf "ProcessMetadata: %v" [.err "malformed leaf"]) :=
  ⟨by simp [main, scripted, failAt],
   (main_metadata_error_is_fatal (scripted (failAt .ProcessMetadata "malformed leaf")) withX 0
      ⟨3⟩ .Background sampleCheckpoint "malformed leaf"
      (by simp [main, scripted, failAt])).2.1⟩

/-- C9: in a run with `-x` where no call received by the collaborators returns
an error, the lines logged are, in this order: checkpoint obtained (with N),
leaves cloned (with N), hashes computed, root checked (with N and the hash, in
hex and as text), metadata processed, the announcement of the extra
validation, and tiles verified, where N and the hash are those of the
checkpoint LatestCheckpoint returned.  In every run, the line that reports an
operation as done comes after a call of that operation that returned no
error, and the calls before the line are calls the collaborators received, in
that order. -/
theorem main_progress_log {W : Type} (audit : Audit W) (cl : CommandLine) (w : W) :
    (failed (recorded audit cl w) = [] → extraV cl = true →
      ∃ cp, fetched (recorded audit cl w) = some cp ∧
        printed (observed audit cl w).trace =
          [("Got SumDB checkpoint for %d entries. Downloading...", [.int cp.N]),
           ("Updated leaves to latest checkpoint (tree size %d). Calculating hashes...",
             [.int cp.N]),
           ("Hashes updated successfully. Checking root hash...", []),
           ("Cloned successfully. Tree size is %d, hash is %x (%s). Processing data...",
             [.int cp.N, .bytes cp.Hash, .hash cp.Hash]),
           ("Leaf data processed.", []),
           ("Performing extra validation on tiles...", []),
           ("Tile verificaton passed", [])]) ∧
    (∀ st format args pre post, completion st = some format →
      (observed audit cl w).trace = pre ++ .Printf format args :: post →
      st ∈ succeeded pre ∧ callEvents pre <+: recorded audit cl w) := by
  have hs := main_shape (recording audit) cl (w, [])
  rw [recorded_eq]
  unfold observed
  generalize (main (recording audit) cl (w, [])).trace = t at hs ⊢
  generalize (main (recording audit) cl (w, [])).exit = e at hs
  constructor
  · cases hs <;>
      simp_all [uptoMetadata, uptoRoot, uptoClone, uptoCheckpoint, failed, fetched, printed,
        Call.stage, callEvents]
  · intro st format args pre post hc ht
    have hr : ReportsAfterSuccess [] t := by
      cases hs <;>
        simp only [uptoMetadata, uptoRoot, uptoClone, uptoCheckpoint, List.cons_append,
          List.nil_append, ReportsAfterSuccess, Call.stage, and_true] <;>
        (try repeat' constructor) <;>
        (intro st h; cases st <;> simp_all [completion])
    rw [ht] at hr
    refine ⟨?_, ?_⟩
    · rcases ReportsAfterSuccess.at_line st format args post hc pre [] hr with h | h
      · simp at h
      · exact h
    · rw [ht, callEvents_append]
      exact List.prefix_append _ _

/-- Witness for C9: the log of a run with `-x` in which nothing fails, the
checkpoint the collaborators returned, and the calls received before the
last line. -/
theorem main_progress_log_witness :
    failed (recorded (scripted noFailure) withX 0) = [] ∧ extraV withX = true ∧
    fetched (recorded (scripted noFailure) withX 0) = some sampleCheckpoint ∧
    (Stage.VerifyTiles ∈
        succeeded ((observed (scripted noFailure) withX 0).trace.take 16) ∧
      callEvents ((observed (scripted noFailure) withX 0).trace.take 16) <+:
        recorded (scripted noFailure) withX 0) ∧
    ∃ cp, fetched (recorded (scripted noFailure) withX 0) = some cp ∧
      printed (observed (scripted noFailure) withX 0).trace =
        [("Got SumDB checkpoint for %d entries. Downloading...", [.int cp.N]),
         ("Updated leaves to latest checkpoint (tree size %d). Calculating hashes...",
           [.int cp.N]),
         ("Hashes updated successfully. Checking root hash...", []),
         ("Cloned successfully. Tree size is %d, hash is %x (%s). Processing data...",
           [.int cp.N, .bytes cp.Hash, .hash cp.Hash]),
         ("Leaf data processed.", []),
         ("Performing extra validation on tiles...", []),
         ("Tile verificaton passed", [])] :=
  ⟨by decide, rfl, by decide,
   (main_progress_log (scripted noFailure) withX 0).2 .VerifyTiles
      "Tile verificaton passed" []
      ((observed (scripted noFailure) withX 0).trace.take 16)
      ((observed (scripted noFailure) withX 0).trace.drop 17) rfl rfl,
   (main_progress_log (scripted noFailure) withX 0).1 (by decide) rfl⟩

/-- C10: every call of NewSumDB and every call of NewService in a run is given
the value of the flag `-h` as its height, so the two heights agree; the value
is 8 when `-h` is not given. -/
theorem main_same_height {W : Type} (audit : Audit W) (cl : CommandLine) (w : W) :
    (∀ h k r, Event.call (.NewSumDB h k) r ∈ (main audit cl w).trace → h = height cl) ∧
    (∀ d sumDB h r, Event.call (.NewService d sumDB h) r ∈ (main audit cl w).trace →
      h = height cl) ∧
    (∀ h1 k r1 d sumDB h2 r2, Event.call (.NewSumDB h1 k) r1 ∈ (main audit cl w).trace →
      Event.call (.NewService d sumDB h2) r2 ∈ (main audit cl w).trace → h1 = h2) ∧
    (cl.h = none → height cl = 8) := by
  have hs := main_shape audit cl w
  generalize (main audit cl w).trace = t at hs ⊢
  generalize (main audit cl w).exit = e at hs
  have h1 : ∀ h k r, Event.call (.NewSumDB h k) r ∈ t → h = height cl := by
    cases hs <;> simp [uptoMetadata, uptoRoot, uptoClone, uptoCheckpoint] <;>
      (intros; assumption)
  have h2 : ∀ d sumDB h r, Event.call (.NewService d sumDB h) r ∈ t → h = height cl := by
    cases hs <;> simp [uptoMetadata, uptoRoot, uptoClone, uptoCheckpoint] <;>
      (intros; assumption)
  refine ⟨h1, h2, ?_, fun hnone => by simp [height, hnone]⟩
  intro a k r1 d sumDB b r2 ha hb
  rw [h1 a k r1 ha, h2 d sumDB b r2 hb]

/-- Witness for C10: with `-h 4` both handles are built with height 4. -/
theorem main_same_height_witness :
    Event.call (.NewSumDB 4 (vkey noFlags)) (.ok (.sumDB ⟨2⟩)) ∈
      (main (scripted noFailure) { h := some 4, k := none, db := none, x := none } 0).trace ∧
    Event.call (.NewService ⟨1⟩ ⟨2⟩ 4) (.ok (.service ⟨3⟩)) ∈
      (main (scripted noFailure) { h := some 4, k := none, db := none, x := none } 0).trace ∧
    height noFlags = 8 :=
  ⟨by simp [main, scripted, noFailure, height, vkey, extraV, noFlags],
   by simp [main, scripted, noFailure, height, vkey, extraV, noFlags],
   (main_same_height (scripted noFailure) noFlags 0).2.2.2 rfl⟩

end SumDBAudit
